import Mathlib

/-!
Verification of the process-supervisor core of the LinkedIn Research Suite
(`unified-server.js`).  The development shallowly embeds the supervisor:

* the log-line formatting pair `log` / `logProcessOutput` (severity sniffing,
  timestamp detection, line construction) as pure functions on character lists;
* the restart bookkeeping (`handleProcessFailure`, `shutdown`, the
  `exit` / `error` child-process event handlers, the restart timer callback)
  as transition functions on an explicit supervisor state;
* the startup sequence `start` and the shutdown teardown as event traces,
  with explicit per-process timing for the shutdown races;
* a small event-loop step relation capturing how the asynchronous startup
  continuation may interleave with a signal-triggered shutdown.
-/

namespace UnifiedServer

/-- The three managed services, as in `CONFIG` / `this.processes`. -/
inductive SName
  | backend
  | frontend
  | stagehand
deriving DecidableEq, Repr

/-! ## Log-line formatting (`log`, `logProcessOutput`)

The source works on JavaScript strings; we embed messages as `List Char`.
`logProcessOutput` sniffs a severity token with the regex
`\b(DEBUG|INFO|WARNING|ERROR|CRITICAL)\b` and tests for a leading timestamp
with `^\d{4}-\d{2}-\d{2}\s+\d{2}:\d{2}:\d{2}`. -/

/-- JavaScript regex word character `\w` = `[A-Za-z0-9_]`. -/
def isWordChar (c : Char) : Bool :=
  ('a' ≤ c && c ≤ 'z') || ('A' ≤ c && c ≤ 'Z') || ('0' ≤ c && c ≤ '9') || c = '_'

/-- The severity alternatives, in the order they appear in the regex. -/
def levelTokens : List (List Char) :=
  [String.data "DEBUG", String.data "INFO", String.data "WARNING",
   String.data "ERROR", String.data "CRITICAL"]

/-- Does `tok` match at the head of `cs` with `\b` boundaries on both sides?
`prev` is the character immediately before `cs` (`none` at start of string). -/
def tokenMatchesAt (prev : Option Char) (cs tok : List Char) : Bool :=
  tok.isPrefixOf cs &&
  (match prev with
   | none => true
   | some c => !isWordChar c) &&
  (match cs.drop tok.length with
   | [] => true
   | c :: _ => !isWordChar c)

/-- Leftmost match of any severity token (first alternative wins at a given
position, as in JavaScript regex alternation). -/
def findLevelAux (prev : Option Char) (cs : List Char) : Option (List Char) :=
  match cs with
  | [] => none
  | c :: rest =>
    match levelTokens.find? (fun tok => tokenMatchesAt prev (c :: rest) tok) with
    | some tok => some tok
    | none => findLevelAux (some c) rest

/-- The severity token found in a message, if any
(`message.match(/\b(DEBUG|INFO|WARNING|ERROR|CRITICAL)\b/)`). -/
def findLevel (cs : List Char) : Option (List Char) :=
  findLevelAux none cs

/-- Severity conversion applied by `logProcessOutput`:
CRITICAL becomes ERROR, DEBUG becomes INFO, others pass through. -/
def convertLevel (lvl : List Char) : List Char :=
  if lvl = String.data "CRITICAL" then String.data "ERROR"
  else if lvl = String.data "DEBUG" then String.data "INFO"
  else lvl

/-- `detectedLevel` after the conversions: the sniffed token
(defaulting to INFO) run through `convertLevel`. -/
def detectLevel (msg : List Char) : List Char :=
  convertLevel ((findLevel msg).getD (String.data "INFO"))

/-- Consume exactly `n` decimal digits. -/
def digits (n : Nat) (cs : List Char) : Option (List Char) :=
  match n, cs with
  | 0, cs => some cs
  | n + 1, c :: cs => if c.isDigit then digits n cs else none
  | _ + 1, [] => none

/-- Consume one fixed character. -/
def lit (c : Char) (cs : List Char) : Option (List Char) :=
  match cs with
  | d :: cs => if d = c then some cs else none
  | [] => none

/-- Consume one-or-more whitespace characters (`\s+`). -/
def ws1 (cs : List Char) : Option (List Char) :=
  match cs with
  | c :: rest => if c.isWhitespace then some (rest.dropWhile Char.isWhitespace) else none
  | [] => none

/-- The test `/^\d{4}-\d{2}-\d{2}\s+\d{2}:\d{2}:\d{2}/.test(message)`. -/
def hasTimestampL (cs : List Char) : Bool :=
  (do
    let r ← digits 4 cs
    let r ← lit '-' r
    let r ← digits 2 r
    let r ← lit '-' r
    let r ← digits 2 r
    let r ← ws1 r
    let r ← digits 2 r
    let r ← lit ':' r
    let r ← digits 2 r
    let r ← lit ':' r
    let r ← digits 2 r
    pure r).isSome

/-- A bracketed field `[x]`. -/
def brack (x : List Char) : List Char :=
  '[' :: x ++ [']']

/-- The line built by `log(level, message, service)`:
`[timestamp] [LEVEL] [SERVICE] message` (without the trailing newline). -/
def logLine (ts lvl svc msg : List Char) : List Char :=
  brack ts ++ ' ' :: (brack lvl ++ ' ' :: (brack svc ++ ' ' :: msg))

/-- The line built by the timestamped branch of `logProcessOutput`:
`[LEVEL] [SERVICE] message` — the supervisor adds no timestamp of its own. -/
def childLine (lvl svc msg : List Char) : List Char :=
  brack lvl ++ ' ' :: (brack svc ++ ' ' :: msg)

/-- `logProcessOutput(message, service)`: sniff the severity, convert it,
then either keep the child's own leading timestamp (emitting
`[LEVEL] [SERVICE] message`) or fall back to `log` with the supervisor's
timestamp `ts`. -/
def logProcessOutput (msg svc ts : List Char) : List Char :=
  let lvl := detectLevel msg
  if hasTimestampL msg then childLine lvl svc msg
  else logLine ts lvl svc msg

/-! ### The documented log-file format

`spec §6`: every log-file line has the shape
`[timestamp] [LEVEL] [SERVICE] message`.  We decide that shape with a small
parser: three bracketed fields separated by single spaces, the first
timestamp-shaped, the second a severity tag. -/

/-- Split at the first `]`, returning the field and the remainder. -/
def spanToRB (cs : List Char) : Option (List Char × List Char) :=
  match cs with
  | [] => none
  | c :: rest =>
    if c = ']' then some ([], rest)
    else
      match spanToRB rest with
      | some (xs, r) => some (c :: xs, r)
      | none => none

/-- Parse one `[field]`. -/
def parseBrack (cs : List Char) : Option (List Char × List Char) :=
  match cs with
  | '[' :: rest => spanToRB rest
  | _ => none

/-- Parse `[t] [l] [s] m`. -/
def parseLogLine (cs : List Char) :
    Option (List Char × List Char × List Char × List Char) := do
  let (t, r1) ← parseBrack cs
  let r1 ← lit ' ' r1
  let (l, r2) ← parseBrack r1
  let r2 ← lit ' ' r2
  let (s, r3) ← parseBrack r2
  let r3 ← lit ' ' r3
  pure (t, l, s, r3)

/-- Is `l` one of the five severity tags? -/
def isLevelTag (l : List Char) : Bool :=
  levelTokens.contains l

/-- A minimally timestamp-shaped field: four digits then a dash
(both the supervisor's ISO timestamps and the backend's
`YYYY-MM-DD hh:mm:ss` stamps have this shape; severity tags do not). -/
def tsShaped (t : List Char) : Bool :=
  match t with
  | a :: b :: c :: d :: e :: _ => a.isDigit && b.isDigit && c.isDigit && d.isDigit && e = '-'
  | _ => false

/-- The documented format of spec §6, as a decidable predicate on a line. -/
def formatOK (line : List Char) : Bool :=
  match parseLogLine line with
  | some (t, l, _, _) => tsShaped t && isLevelTag l
  | none => false

/-! ## Restart bookkeeping

State carried by the `UnifiedServer` instance, restricted to the fields the
restart/shutdown control logic reads and writes.  `exitCalls` records the
`process.exit` invocations (in order, with their codes), `spawns` records the
`spawnProcess` invocations, `pending` the restart timers armed by
`setTimeout`, and `logs` the messages passed to `log` (their exact rendering
is the concern of the formatting section above). -/

/-- `this.maxRestarts`. -/
def maxRestarts : Nat := 3

/-- `this.restartDelay` (milliseconds). -/
def restartDelayMs : Nat := 5000

/-- Supervisor instance state. -/
structure SupState where
  restartCounts : SName → Nat
  isShuttingDown : Bool
  pending : List (SName × Nat)
  exitCalls : List Nat
  spawns : List SName
  logs : List (List Char)

/-- Append one log message (the state effect of `this.log(...)`). -/
def pushLog (s : SupState) (m : List Char) : SupState :=
  { s with logs := s.logs ++ [m] }

/-- Control effects of `shutdown(exitCode)`: a re-entrant call only logs and
returns; a first call sets the flag, runs the teardown sequence (modelled in
trace form below) and ends in `process.exit(exitCode)`. -/
def shutdown (s : SupState) (exitCode : Nat) : SupState :=
  if s.isShuttingDown then
    pushLog s (String.data "Shutdown already in progress...")
  else
    { s with isShuttingDown := true,
             logs := s.logs ++ [String.data "Shutting down services..."],
             exitCalls := s.exitCalls ++ [exitCode] }

/-- Increment one service's restart counter
(`this.restartCounts[processName]++`). -/
def bumpCount (f : SName → Nat) (n : SName) : SName → Nat :=
  fun m => if m = n then f m + 1 else f m

/-- `handleProcessFailure(processName)`: if the stored counter has reached
`maxRestarts`, log and shut down with exit code 1; otherwise increment the
counter, log, and arm a `restartDelay` timer for that one service. -/
def handleProcessFailure (s : SupState) (n : SName) : SupState :=
  if s.restartCounts n ≥ maxRestarts then
    shutdown (pushLog s (String.data "exceeded maximum restart attempts")) 1
  else
    let s1 := { s with restartCounts := bumpCount s.restartCounts n }
    let s2 := pushLog s1 (String.data "Restarting in 5000ms")
    { s2 with pending := s2.pending ++ [(n, restartDelayMs)] }

/-- State effect of `startProcess(name)`: a fresh `spawnProcess` call
(any stale handle is killed and replaced, so the spawn history grows by
exactly this one entry). -/
def startProcess (s : SupState) (n : SName) : SupState :=
  { s with spawns := s.spawns ++ [n] }

/-- The restart timer callback armed by `handleProcessFailure`
(`setTimeout(() => { if (!this.isShuttingDown) this.startProcess(...) })`). -/
def fireRestart (s : SupState) (n : SName) : SupState :=
  if s.isShuttingDown then s else startProcess s n

/-- The child `exit` event handler: during shutdown the exit is logged as
graceful; otherwise it is unexpected and feeds `handleProcessFailure`. -/
def onProcExit (s : SupState) (n : SName) : SupState :=
  if s.isShuttingDown then
    pushLog s (String.data "process exited gracefully")
  else
    handleProcessFailure (pushLog s (String.data "process exited unexpectedly")) n

/-- The child `error` event handler (spawn failure): logs, then feeds
`handleProcessFailure` unconditionally. -/
def onProcError (s : SupState) (n : SName) : SupState :=
  handleProcessFailure (pushLog s (String.data "process error")) n

/-- The state built by the constructor: zero counters, flag down, no timers,
no exits, no spawns, the startup banner logged. -/
def initState : SupState :=
  { restartCounts := fun _ => 0
    isShuttingDown := false
    pending := []
    exitCalls := []
    spawns := []
    logs := [String.data "LinkedIn Research Suite - Unified Server Starting"] }

/-- `k` successive unexpected failures of service `n`. -/
def iterFail : Nat → SupState → SName → SupState
  | 0, s, _ => s
  | k + 1, s, n => iterFail k (handleProcessFailure s n) n

/-- The fields `handleProcessFailure` may read or write other than the log:
counters, armed timers, the shutdown flag, exit calls and spawns.
Two states with equal views are handled identically for restart purposes. -/
def restartView (s : SupState) :
    (SName → Nat) × List (SName × Nat) × Bool × List Nat × List SName :=
  (s.restartCounts, s.pending, s.isShuttingDown, s.exitCalls, s.spawns)

/-! ## Startup and shutdown as event traces

`start()` is a straight-line async sequence; we record the externally
observable actions it performs, in program order.  `shutdown()` tears the
tracked processes down concurrently; we record one linearisation of its
events plus explicit per-process timing, which is where the concurrency
(total wait bounded by one timeout, not the sum) becomes visible. -/

/-- Observable supervisor actions. -/
inductive Ev
  | spawn (n : SName)
  | healthOk (n : SName)
  | healthTimeout (n : SName)
  | cleanup
  | restartSched (n : SName)
  | sigReceived
  | shutdownBegin
  | sigterm (n : SName)
  | sigkill (n : SName)
  | exited (n : SName)
  | logStreamClosed
  | exitProcess (code : Nat)
deriving DecidableEq, Repr

/-- Default `maxAttempts` of `waitForHealthcheck`. -/
def maxAttempts : Nat := 30

/-- The 2000 ms pause between health poll attempts. -/
def healthIntervalMs : Nat := 2000

/-- The attempt loop of `waitForHealthcheck`: `p a` is the outcome of the
`curl` probe on attempt `a`.  On the first success the service is logged
healthy (and, for stagehand only, old sessions are cleaned up); when the
budget is exhausted a timeout warning is logged and `false` returned. -/
def wfh (n : SName) (p : Nat → Bool) (attempt fuel : Nat) : List Ev × Bool :=
  match fuel with
  | 0 => ([Ev.healthTimeout n], false)
  | fuel + 1 =>
    if p attempt then
      (Ev.healthOk n :: (if n = SName.stagehand then [Ev.cleanup] else []), true)
    else wfh n p (attempt + 1) fuel

/-- `waitForHealthcheck(name, port)` with its default budget of 30 attempts. -/
def waitForHealthcheck (n : SName) (p : Nat → Bool) : List Ev × Bool :=
  wfh n p 1 maxAttempts

/-- The actions of `start()` on its non-throwing path, in program order:
spawn stagehand; await its health check; clean up old sessions; spawn the
backend; sleep 3000 ms; spawn the frontend; then await the backend and
frontend health checks. -/
def startTrace (polls : SName → Nat → Bool) : List Ev :=
  Ev.spawn SName.stagehand ::
    ((waitForHealthcheck SName.stagehand (polls SName.stagehand)).1 ++
      Ev.cleanup ::
      Ev.spawn SName.backend ::
      Ev.spawn SName.frontend ::
      ((waitForHealthcheck SName.backend (polls SName.backend)).1 ++
        (waitForHealthcheck SName.frontend (polls SName.frontend)).1))

/-- A tracked child process at shutdown time: whether a signal was already
delivered to it (Node's `killed` flag, tested by `!process.killed`), and the
delay after SIGTERM at which it would exit (`none`: it never would). -/
structure ProcInfo where
  killed : Bool
  exitTime : Option Nat
deriving DecidableEq, Repr

/-- The 10000 ms per-process shutdown timeout. -/
def shutdownTimeoutMs : Nat := 10000

/-- The `this.processes` table. -/
def ProcTable : Type :=
  SName → Option ProcInfo

/-- Iteration order of `Object.entries(this.processes)` (insertion order of
the constructor's literal). -/
def tableNames : List SName :=
  [SName.backend, SName.frontend, SName.stagehand]

/-- Does the exit event win the race against the 10 s timeout? -/
def exitsWithin (p : ProcInfo) : Bool :=
  match p.exitTime with
  | some t => t < shutdownTimeoutMs
  | none => false

/-- Events of one per-process shutdown promise: SIGTERM, then either the
observed exit or the forced kill. -/
def perProc (n : SName) (p : ProcInfo) : List Ev :=
  Ev.sigterm n :: (if exitsWithin p then [Ev.exited n] else [Ev.sigkill n])

/-- Per-service contribution to the teardown: skipped for an absent handle
or one whose `killed` flag is already set. -/
def procEvents (tbl : ProcTable) (n : SName) : List Ev :=
  match tbl n with
  | some p => if p.killed then [] else perProc n p
  | none => []

/-- One linearisation of `shutdown(code)` past the idempotence guard: flag
set, the concurrent per-process races, and — only after all of them
resolve — the log stream closed and `process.exit(code)`. -/
def shutdownTrace (tbl : ProcTable) (code : Nat) : List Ev :=
  Ev.shutdownBegin ::
    ((tableNames.map (procEvents tbl)).flatten ++ [Ev.logStreamClosed, Ev.exitProcess code])

/-- Time at which one process's race resolves: its exit, capped by the
force-kill timeout. -/
def resolveTime (p : ProcInfo) : Nat :=
  match p.exitTime with
  | some t => min t shutdownTimeoutMs
  | none => shutdownTimeoutMs

/-- Resolve times of all races actually started. -/
def procResolveTimes (tbl : ProcTable) : List Nat :=
  tableNames.filterMap fun n =>
    match tbl n with
    | some p => if p.killed then none else some (resolveTime p)
    | none => none

/-- When `Promise.all` of the races resolves: the races run concurrently, so
this is the maximum — not the sum — of the individual resolve times. -/
def completionTime (tbl : ProcTable) : Nat :=
  (procResolveTimes tbl).foldr max 0

/-- The signal handler of `setupSignalHandlers`: log the signal, then call
`shutdown()` with its default exit code 0. -/
def signalTrace (tbl : ProcTable) : List Ev :=
  Ev.sigReceived :: shutdownTrace tbl 0

/-- A concrete process table for witnesses: a backend that exits 120 ms
after SIGTERM, a frontend that never exits on SIGTERM, and a stagehand
handle that is absent. -/
def sampleTable : ProcTable := fun n =>
  match n with
  | SName.backend => some { killed := false, exitTime := some 120 }
  | SName.frontend => some { killed := false, exitTime := none }
  | SName.stagehand => none

/-! ## Event-loop interleaving of `start()` with `shutdown()`

`start()` suspends at each `await`; the signal handler may run at any of
those suspension points, and the already-armed timers of `start()` still
fire afterwards, because nothing in `start()` re-checks `isShuttingDown`.
Each `runSeg` step is the event-loop turn in which the segment's awaited
promise has resolved; the modelled execution has the stagehand health check
succeed on its first poll.  `signal` is the synchronous part of the signal
handler together with `shutdown()` up to its first `await` (after which the
supervisor suspends for up to 10 s waiting for child exits, so a pending 3 s
timer of `start()` can fire before the supervisor's process exits). -/

/-- Event-loop state: the shutdown flag, how far `start()` has run, and the
observable trace. -/
structure LoopState where
  isShuttingDown : Bool
  startPC : Nat
  trace : List Ev
deriving DecidableEq, Repr

/-- Number of `start()` segments in the model. -/
def segCount : Nat := 4

/-- The segments of `start()` between suspension points: spawn stagehand /
health check plus session cleanups / spawn backend (then the 3 s sleep) /
spawn frontend.  No segment consults `isShuttingDown`. -/
def applySeg (k : Nat) (s : LoopState) : LoopState :=
  match k with
  | 0 => { s with trace := s.trace ++ [Ev.spawn SName.stagehand], startPC := 1 }
  | 1 => { s with trace := s.trace ++ [Ev.healthOk SName.stagehand, Ev.cleanup, Ev.cleanup],
                  startPC := 2 }
  | 2 => { s with trace := s.trace ++ [Ev.spawn SName.backend], startPC := 3 }
  | _ => { s with trace := s.trace ++ [Ev.spawn SName.frontend], startPC := 4 }

/-- Delivery of a termination signal: a no-op re-entry if the flag is
already set, otherwise the flag goes up and teardown begins. -/
def applySignal (s : LoopState) : LoopState :=
  if s.isShuttingDown then s
  else { s with isShuttingDown := true,
                trace := s.trace ++ [Ev.sigReceived, Ev.shutdownBegin] }

/-- One event-loop turn: either the next ready segment of `start()` runs, or
a signal is delivered. -/
inductive LoopStep : LoopState → LoopState → Prop
  | runSeg (k : Nat) (s : LoopState) : s.startPC = k → k < segCount → LoopStep s (applySeg k s)
  | signal (s : LoopState) : LoopStep s (applySignal s)

/-- Event-loop state before `start()` begins. -/
def loopInit : LoopState :=
  { isShuttingDown := false, startPC := 0, trace := [] }

/-! ## General lemmas -/

/-- `handleProcessFailure` ignores the log: its restart-relevant effect is
the same on a state that differs only by an extra log message. -/
theorem restartView_handleProcessFailure_pushLog (s : SupState) (m : List Char) (n : SName) :
    restartView (handleProcessFailure (pushLog s m) n) = restartView (handleProcessFailure s n) := by
  simp only [handleProcessFailure, shutdown, pushLog, restartView]
  split_ifs <;> simp_all

/-! ## Claim C2 — restart counting -/

/-- Claim C2 (counterexample): after three unexpected failures of the
backend the stored restart counter equals the maximum (3), so it is "at or
below the maximum of 3"; yet the next unexpected failure does not schedule a
re-spawn — it arms no timer and instead calls `process.exit(1)`.  The claim's
"re-spawn when the counter is at or below the maximum" is therefore false at
this reachable state. -/
theorem claim_C2_counterexample :
    (iterFail 3 initState SName.backend).isShuttingDown = false ∧
    (iterFail 3 initState SName.backend).restartCounts SName.backend ≤ maxRestarts ∧
    (handleProcessFailure (iterFail 3 initState SName.backend) SName.backend).pending
      = (iterFail 3 initState SName.backend).pending ∧
    (handleProcessFailure (iterFail 3 initState SName.backend) SName.backend).exitCalls = [1] := by
  refine ⟨rfl, by decide, by decide, by decide⟩

/-- Claim C2 (amended): while the supervisor is not shutting down, an
unexpected failure of service `n` schedules a single 5000 ms re-spawn of `n`
exactly when the stored counter is strictly below the maximum (3), and
triggers a fatal shutdown with exit code 1 exactly when the counter has
reached the maximum; the counter of `n` then increments only in the re-spawn
case, no counter ever exceeds the maximum, no counter ever decreases, and
starting from the fresh supervisor state the first three unexpected failures
produce no exit while the fourth produces exactly `process.exit(1)`. -/
theorem claim_C2_theorem (s : SupState) (n : SName) (h : s.isShuttingDown = false) :
    (s.restartCounts n < maxRestarts →
      (handleProcessFailure s n).restartCounts n = s.restartCounts n + 1 ∧
      (∀ m, m ≠ n → (handleProcessFailure s n).restartCounts m = s.restartCounts m) ∧
      (handleProcessFailure s n).pending = s.pending ++ [(n, restartDelayMs)] ∧
      (handleProcessFailure s n).exitCalls = s.exitCalls ∧
      (handleProcessFailure s n).isShuttingDown = false) ∧
    (maxRestarts ≤ s.restartCounts n →
      (handleProcessFailure s n).exitCalls = s.exitCalls ++ [1] ∧
      (handleProcessFailure s n).isShuttingDown = true ∧
      (handleProcessFailure s n).restartCounts = s.restartCounts ∧
      (handleProcessFailure s n).pending = s.pending) ∧
    (∀ m, s.restartCounts m ≤ maxRestarts → (handleProcessFailure s n).restartCounts m ≤ maxRestarts) ∧
    (∀ m, s.restartCounts m ≤ (handleProcessFailure s n).restartCounts m) ∧
    (∀ m c, s.restartCounts m ≤ (shutdown s c).restartCounts m) ∧
    (∀ m, s.restartCounts m ≤ (onProcExit s n).restartCounts m) ∧
    (∀ m, s.restartCounts m ≤ (onProcError s n).restartCounts m) ∧
    (∀ m, s.restartCounts m ≤ (fireRestart s n).restartCounts m) ∧
    ((iterFail 3 initState n).exitCalls = [] ∧ (iterFail 4 initState n).exitCalls = [1]) := by
  have hcount : ∀ m, s.restartCounts m ≤ (handleProcessFailure s n).restartCounts m := by
    intro m
    unfold handleProcessFailure shutdown pushLog bumpCount
    split_ifs <;> simp
    all_goals split_ifs <;> simp
  refine ⟨?_, ?_, ?_, hcount, ?_, ?_, ?_, ?_, ?_⟩
  · intro hlt
    have hnot : ¬ s.restartCounts n ≥ maxRestarts := by omega
    refine ⟨?_, ?_, ?_, ?_, ?_⟩ <;>
      simp [handleProcessFailure, hnot, pushLog, bumpCount, h]
  · intro hge
    have hyes : s.restartCounts n ≥ maxRestarts := hge
    refine ⟨?_, ?_, ?_, ?_⟩ <;>
      simp [handleProcessFailure, hyes, shutdown, pushLog, h]
  · intro m hm
    have := hcount m
    unfold handleProcessFailure shutdown pushLog bumpCount at *
    split_ifs at * <;> simp_all
    all_goals split_ifs <;> simp_all
    all_goals omega
  · intro m c
    unfold shutdown pushLog
    split_ifs <;> simp
  · intro m
    unfold onProcExit pushLog
    split_ifs with h1
    · simp
    · have h2 := restartView_handleProcessFailure_pushLog s
        (String.data "process exited unexpectedly") n
      have h3 : ∀ m, s.restartCounts m ≤ (handleProcessFailure s n).restartCounts m := hcount
      have h4 : (handleProcessFailure (pushLog s (String.data "process exited unexpectedly")) n).restartCounts
          = (handleProcessFailure s n).restartCounts := congrArg (fun v => v.1) h2
      rw [show handleProcessFailure { s with logs := s.logs ++ [String.data "process exited unexpectedly"] } n
            = handleProcessFailure (pushLog s (String.data "process exited unexpectedly")) n from rfl]
      rw [h4]
      exact h3 m
  · intro m
    unfold onProcError
    have h2 := restartView_handleProcessFailure_pushLog s (String.data "process error") n
    have h4 : (handleProcessFailure (pushLog s (String.data "process error")) n).restartCounts
        = (handleProcessFailure s n).restartCounts := congrArg (fun v => v.1) h2
    rw [h4]
    exact hcount m
  · intro m
    unfold fireRestart startProcess
    split_ifs <;> simp
  · cases n <;> exact ⟨by decide, by decide⟩

/-- Claim C2 (witness): the amended theorem applied at the fresh supervisor
state and the backend: the counter is 0 < 3, so one failure arms one 5000 ms
timer for the backend and calls no exit; and from the fresh state the fourth
failure is the first and only exit call, with code 1. -/
theorem claim_C2_witness :
    initState.isShuttingDown = false ∧
    (handleProcessFailure initState SName.backend).pending = [(SName.backend, restartDelayMs)] ∧
    (handleProcessFailure initState SName.backend).exitCalls = [] ∧
    (iterFail 4 initState SName.backend).exitCalls = [1] := by
  have h := claim_C2_theorem initState SName.backend rfl
  have h1 := h.1 (by decide)
  refine ⟨rfl, ?_, ?_, h.2.2.2.2.2.2.2.2.2⟩
  · have := h1.2.2.1
    simpa [initState] using this
  · simpa [initState] using h1.2.2.2.1

/-! ## Claim C3 — shutdown idempotence -/

/-- Claim C3: shutdown is idempotent.  A first trigger (in a state not yet
shutting down) raises the flag and records exactly one `process.exit` call
with the code it requested; a second trigger arriving while shutdown is in
progress only appends a warning log and changes nothing else, so the exit
calls remain exactly those of the first trigger. -/
theorem claim_C3_theorem (s : SupState) (c1 c2 : Nat) (h : s.isShuttingDown = false) :
    (shutdown s c1).isShuttingDown = true ∧
    (shutdown s c1).exitCalls = s.exitCalls ++ [c1] ∧
    shutdown (shutdown s c1) c2
      = pushLog (shutdown s c1) (String.data "Shutdown already in progress...") ∧
    (shutdown (shutdown s c1) c2).exitCalls = s.exitCalls ++ [c1] ∧
    restartView (shutdown (shutdown s c1) c2) = restartView (shutdown s c1) := by
  refine ⟨?_, ?_, ?_, ?_, ?_⟩ <;> simp [shutdown, h, pushLog, restartView]

/-- Claim C3 (witness): the idempotence theorem at the fresh state with a
first trigger requesting exit code 0 and a second requesting 1: exactly one
exit call, with code 0. -/
theorem claim_C3_witness :
    initState.isShuttingDown = false ∧
    (shutdown (shutdown initState 0) 1).exitCalls = [0] := by
  have h := claim_C3_theorem initState 0 1 rfl
  exact ⟨rfl, by simpa [initState] using h.2.2.2.1⟩

/-! ## Claim C9 — error events feed the restart logic like exits -/

/-- Claim C9: a child `error` event (spawn failure) is handled identically to
an unexpected `exit` for restart purposes: while the supervisor is not
shutting down, both handlers produce the same counters, timers, shutdown
flag, exit calls and spawns as a direct call to the shared failure handler —
hence the same bound and the same fatal escalation. -/
theorem claim_C9_theorem (s : SupState) (n : SName) (h : s.isShuttingDown = false) :
    restartView (onProcError s n) = restartView (handleProcessFailure s n) ∧
    restartView (onProcExit s n) = restartView (handleProcessFailure s n) ∧
    restartView (onProcError s n) = restartView (onProcExit s n) := by
  have he : restartView (onProcError s n) = restartView (handleProcessFailure s n) := by
    unfold onProcError
    exact restartView_handleProcessFailure_pushLog s (String.data "process error") n
  have hx : restartView (onProcExit s n) = restartView (handleProcessFailure s n) := by
    unfold onProcExit
    rw [if_neg (by simp [h])]
    exact restartView_handleProcessFailure_pushLog s
      (String.data "process exited unexpectedly") n
  exact ⟨he, hx, he.trans hx.symm⟩

/-- Claim C9 (witness): the theorem at the fresh state and the stagehand
service; both handlers increment the stagehand counter to 1. -/
theorem claim_C9_witness :
    initState.isShuttingDown = false ∧
    restartView (onProcError initState SName.stagehand)
      = restartView (onProcExit initState SName.stagehand) := by
  exact ⟨rfl, (claim_C9_theorem initState SName.stagehand rfl).2.2⟩

/-! ## Claim C10 — no spawn after shutdown begins -/

/-- Claim C10 (counterexample): a reachable event-loop execution in which the
signal (and with it the shutdown flag) arrives after the backend is spawned,
while the 3-second timer of `start()` is still pending; when that timer
fires, the `start()` continuation spawns the frontend even though
`isShuttingDown` is already `true` — so a new child process is spawned after
shutdown has begun, refuting "no new child process is ever spawned". -/
theorem claim_C10_counterexample :
    Relation.ReflTransGen LoopStep loopInit
      (applySeg 3 (applySignal (applySeg 2 (applySeg 1 (applySeg 0 loopInit))))) ∧
    (applySignal (applySeg 2 (applySeg 1 (applySeg 0 loopInit)))).isShuttingDown = true ∧
    (applySeg 3 (applySignal (applySeg 2 (applySeg 1 (applySeg 0 loopInit))))).trace
      = (applySignal (applySeg 2 (applySeg 1 (applySeg 0 loopInit)))).trace
          ++ [Ev.spawn SName.frontend] ∧
    (applySeg 3 (applySignal (applySeg 2 (applySeg 1 (applySeg 0 loopInit))))).trace
      = [Ev.spawn SName.stagehand, Ev.healthOk SName.stagehand, Ev.cleanup, Ev.cleanup,
         Ev.spawn SName.backend, Ev.sigReceived, Ev.shutdownBegin, Ev.spawn SName.frontend] := by
  refine ⟨?_, by decide, by decide, by decide⟩
  have s1 : LoopStep loopInit (applySeg 0 loopInit) :=
    LoopStep.runSeg 0 loopInit rfl (by decide)
  have s2 : LoopStep (applySeg 0 loopInit) (applySeg 1 (applySeg 0 loopInit)) :=
    LoopStep.runSeg 1 _ rfl (by decide)
  have s3 : LoopStep (applySeg 1 (applySeg 0 loopInit))
      (applySeg 2 (applySeg 1 (applySeg 0 loopInit))) :=
    LoopStep.runSeg 2 _ rfl (by decide)
  have s4 : LoopStep (applySeg 2 (applySeg 1 (applySeg 0 loopInit)))
      (applySignal (applySeg 2 (applySeg 1 (applySeg 0 loopInit)))) :=
    LoopStep.signal _
  have s5 : LoopStep (applySignal (applySeg 2 (applySeg 1 (applySeg 0 loopInit))))
      (applySeg 3 (applySignal (applySeg 2 (applySeg 1 (applySeg 0 loopInit))))) :=
    LoopStep.runSeg 3 _ (by decide) (by decide)
  exact Relation.ReflTransGen.tail
    (Relation.ReflTransGen.tail
      (Relation.ReflTransGen.tail
        (Relation.ReflTransGen.tail
          (Relation.ReflTransGen.tail Relation.ReflTransGen.refl s1) s2) s3) s4) s5

/-- Claim C10 (amended): the restart path is indeed suppressed — a restart
timer armed by `handleProcessFailure` whose delay elapses after shutdown has
begun finds `isShuttingDown` set and does nothing: the state, and in
particular the spawn history and the process table, are unchanged.  (The
startup continuation of `start()` performs no such check, which is the part
of the original claim the counterexample refutes.) -/
theorem claim_C10_theorem (s : SupState) (n : SName) (h : s.isShuttingDown = true) :
    fireRestart s n = s ∧ (fireRestart s n).spawns = s.spawns := by
  constructor <;> simp [fireRestart, h]

/-- Claim C10 (witness): the suppression theorem at a state with the flag
up: firing a pending backend restart changes nothing. -/
theorem claim_C10_witness :
    (shutdown initState 1).isShuttingDown = true ∧
    fireRestart (shutdown initState 1) SName.backend = shutdown initState 1 := by
  refine ⟨by decide, (claim_C10_theorem (shutdown initState 1) SName.backend (by decide)).1⟩

/-! ## Lemmas about the health-check loop and the traces -/

/-- Every event emitted by the health-check loop for service `n` is a health
success, a session cleanup, or a health timeout for that service. -/
theorem wfh_mem (n : SName) (p : Nat → Bool) (a f : Nat) (e : Ev)
    (he : e ∈ (wfh n p a f).1) :
    e = Ev.healthOk n ∨ e = Ev.cleanup ∨ e = Ev.healthTimeout n := by
  induction f generalizing a with
  | zero => exact Or.inr (Or.inr (by simpa [wfh] using he))
  | succ f ih =>
    by_cases hp : p a
    · rcases (by simpa [wfh, hp] using he :
          e = Ev.healthOk n ∨ (n = SName.stagehand ∧ e = Ev.cleanup)) with h1 | ⟨_, h1⟩
      · exact Or.inl h1
      · exact Or.inr (Or.inl h1)
    · exact ih (a + 1) (by simpa [wfh, hp] using he)

/-- The health-check loop always terminates in an observed success or an
observed timeout for its service. -/
theorem wfh_done (n : SName) (p : Nat → Bool) (a f : Nat) :
    Ev.healthOk n ∈ (wfh n p a f).1 ∨ Ev.healthTimeout n ∈ (wfh n p a f).1 := by
  induction f generalizing a with
  | zero =>
    right
    simp [wfh]
  | succ f ih =>
    by_cases hp : p a
    · left
      simp [wfh, hp]
    · simpa [wfh, hp] using ih (a + 1)

/-- A service whose probe never succeeds exhausts the budget: the loop
returns `false` having emitted exactly the timeout warning. -/
theorem wfh_allFalse (n : SName) (p : Nat → Bool) (hp : ∀ k, p k = false) (a f : Nat) :
    wfh n p a f = ([Ev.healthTimeout n], false) := by
  induction f generalizing a with
  | zero => rfl
  | succ f ih =>
    simp only [wfh, hp a]
    simpa using ih (a + 1)

/-- The block of a member of `l` is a sublist of the flattened mapped list. -/
theorem sublist_flatten_of_mem {α β : Type} (f : α → List β) {a : α} {l : List α}
    (h : a ∈ l) : (f a).Sublist (l.map f).flatten := by
  induction l with
  | nil => cases h
  | cons b bs ih =>
    rcases List.mem_cons.mp h with h1 | h1
    · subst h1
      simp only [List.map_cons, List.flatten_cons]
      exact List.sublist_append_left (f a) (bs.map f).flatten
    · simp only [List.map_cons, List.flatten_cons]
      exact (ih h1).trans (List.sublist_append_right (f b) ((bs.map f).flatten))

/-- Every member is bounded by the `max`-fold. -/
theorem le_foldr_max (l : List Nat) (x : Nat) (h : x ∈ l) : x ≤ l.foldr max 0 := by
  induction l with
  | nil => cases h
  | cons a l ih =>
    rcases List.mem_cons.mp h with h1 | h1
    · subst h1
      exact le_max_left _ _
    · exact le_trans (ih h1) (le_max_right _ _)

/-- The `max`-fold is bounded by any bound of all members. -/
theorem foldr_max_le (l : List Nat) (b : Nat) (h : ∀ x ∈ l, x ≤ b) : l.foldr max 0 ≤ b := by
  induction l with
  | nil => simp
  | cons a l ih =>
    simp only [List.foldr_cons]
    exact max_le (h a (by simp)) (ih fun x hx => h x (List.mem_cons_of_mem _ hx))

/-- Each service name appears in the iteration order of the process table. -/
theorem mem_tableNames (n : SName) : n ∈ tableNames := by
  cases n <;> decide

/-- Every event of the startup trace is a spawn, a cleanup call, or a health
observation — in particular, never an exit, a shutdown, or a scheduled
restart. -/
theorem startTrace_mem (polls : SName → Nat → Bool) (e : Ev) (he : e ∈ startTrace polls) :
    e = Ev.spawn SName.stagehand ∨ e = Ev.spawn SName.backend ∨ e = Ev.spawn SName.frontend ∨
    e = Ev.cleanup ∨ (∃ n, e = Ev.healthOk n) ∨ (∃ n, e = Ev.healthTimeout n) := by
  have hw : ∀ n p, e ∈ (waitForHealthcheck n p).1 →
      e = Ev.healthOk n ∨ e = Ev.cleanup ∨ e = Ev.healthTimeout n := by
    intro n p hmem
    exact wfh_mem n p 1 maxAttempts e hmem
  simp only [startTrace, List.mem_cons, List.mem_append] at he
  rcases he with h | h | h | h | h | h | h
  · exact Or.inl h
  · rcases hw _ _ h with h1 | h1 | h1
    · exact Or.inr (Or.inr (Or.inr (Or.inr (Or.inl ⟨_, h1⟩))))
    · exact Or.inr (Or.inr (Or.inr (Or.inl h1)))
    · exact Or.inr (Or.inr (Or.inr (Or.inr (Or.inr ⟨_, h1⟩))))
  · exact Or.inr (Or.inr (Or.inr (Or.inl h)))
  · exact Or.inr (Or.inl h)
  · exact Or.inr (Or.inr (Or.inl h))
  · rcases hw _ _ h with h1 | h1 | h1
    · exact Or.inr (Or.inr (Or.inr (Or.inr (Or.inl ⟨_, h1⟩))))
    · exact Or.inr (Or.inr (Or.inr (Or.inl h1)))
    · exact Or.inr (Or.inr (Or.inr (Or.inr (Or.inr ⟨_, h1⟩))))
  · rcases hw _ _ h with h1 | h1 | h1
    · exact Or.inr (Or.inr (Or.inr (Or.inr (Or.inl ⟨_, h1⟩))))
    · exact Or.inr (Or.inr (Or.inr (Or.inl h1)))
    · exact Or.inr (Or.inr (Or.inr (Or.inr (Or.inr ⟨_, h1⟩))))

/-! ## Claim C1 — dependency-ordered, health-gated startup -/

/-- Claim C1 (counterexample): in the startup execution where every health
probe succeeds immediately, the frontend — whose declared predecessor is the
backend — is spawned before the backend's health check is even observed
successful: no occurrence of a backend health success precedes the frontend
spawn in the trace, refuting "a service with a predecessor is never spawned
before its predecessor reports healthy". -/
theorem claim_C1_counterexample :
    startTrace (fun _ _ => true)
      = [Ev.spawn SName.stagehand, Ev.healthOk SName.stagehand, Ev.cleanup, Ev.cleanup,
         Ev.spawn SName.backend, Ev.spawn SName.frontend,
         Ev.healthOk SName.backend, Ev.healthOk SName.frontend] ∧
    ¬ ([Ev.healthOk SName.backend, Ev.spawn SName.frontend].Sublist
        (startTrace (fun _ _ => true))) := by
  exact ⟨by decide, by decide⟩

/-- Claim C1 (amended): services are spawned in the fixed order stagehand,
backend, frontend; the stagehand health-check phase completes — with an
observed success or an observed timeout — before the backend is spawned; and
the frontend is spawned immediately after the backend (after a fixed 3 s
sleep), with no intervening event, so in particular without waiting for any
backend health observation.  A successful predecessor health check is not a
precondition for spawning a dependent. -/
theorem claim_C1_theorem (polls : SName → Nat → Bool) :
    [Ev.spawn SName.stagehand, Ev.spawn SName.backend, Ev.spawn SName.frontend].Sublist
      (startTrace polls) ∧
    ([Ev.healthOk SName.stagehand, Ev.spawn SName.backend].Sublist (startTrace polls) ∨
     [Ev.healthTimeout SName.stagehand, Ev.spawn SName.backend].Sublist (startTrace polls)) ∧
    [Ev.spawn SName.backend, Ev.spawn SName.frontend].IsInfix (startTrace polls) := by
  refine ⟨?_, ?_, ?_⟩
  · simp only [startTrace]
    refine List.Sublist.cons₂ _ ?_
    refine List.Sublist.trans ?_ (List.sublist_append_right
      (waitForHealthcheck SName.stagehand (polls SName.stagehand)).1 _)
    exact List.Sublist.cons _ (List.Sublist.cons₂ _ (List.Sublist.cons₂ _ (List.nil_sublist _)))
  · rcases wfh_done SName.stagehand (polls SName.stagehand) 1 maxAttempts with hd | hd
    · left
      simp only [startTrace]
      refine List.Sublist.cons _ ?_
      have h1 : [Ev.healthOk SName.stagehand].Sublist
          (waitForHealthcheck SName.stagehand (polls SName.stagehand)).1 :=
        List.singleton_sublist.mpr hd
      have h2 : [Ev.spawn SName.backend].Sublist
          (Ev.cleanup :: Ev.spawn SName.backend :: Ev.spawn SName.frontend ::
            ((waitForHealthcheck SName.backend (polls SName.backend)).1 ++
              (waitForHealthcheck SName.frontend (polls SName.frontend)).1)) :=
        List.Sublist.cons _ (List.Sublist.cons₂ _ (List.nil_sublist _))
      exact List.Sublist.append h1 h2
    · right
      simp only [startTrace]
      refine List.Sublist.cons _ ?_
      have h1 : [Ev.healthTimeout SName.stagehand].Sublist
          (waitForHealthcheck SName.stagehand (polls SName.stagehand)).1 :=
        List.singleton_sublist.mpr hd
      have h2 : [Ev.spawn SName.backend].Sublist
          (Ev.cleanup :: Ev.spawn SName.backend :: Ev.spawn SName.frontend ::
            ((waitForHealthcheck SName.backend (polls SName.backend)).1 ++
              (waitForHealthcheck SName.frontend (polls SName.frontend)).1)) :=
        List.Sublist.cons _ (List.Sublist.cons₂ _ (List.nil_sublist _))
      exact List.Sublist.append h1 h2
  · refine ⟨Ev.spawn SName.stagehand ::
      ((waitForHealthcheck SName.stagehand (polls SName.stagehand)).1 ++ [Ev.cleanup]),
      (waitForHealthcheck SName.backend (polls SName.backend)).1 ++
        (waitForHealthcheck SName.frontend (polls SName.frontend)).1, ?_⟩
    simp [startTrace]

/-! ## Claim C6 — a health-check timeout is not fatal -/

/-- Claim C6: when the stagehand (the declared dependency of the backend)
never becomes healthy, its health-check loop exhausts all 30 attempts,
returns `false` having logged exactly the timeout warning, and startup
proceeds anyway: the backend spawn follows the observed timeout, and no
startup execution ever contains an exit call, a shutdown, or a scheduled
restart — in particular (last conjunct) exhaustion behaves the same for
every service. -/
theorem claim_C6_theorem (polls : SName → Nat → Bool)
    (h : ∀ k, polls SName.stagehand k = false) :
    waitForHealthcheck SName.stagehand (polls SName.stagehand)
      = ([Ev.healthTimeout SName.stagehand], false) ∧
    [Ev.healthTimeout SName.stagehand, Ev.spawn SName.backend].Sublist (startTrace polls) ∧
    (∀ c, Ev.exitProcess c ∉ startTrace polls) ∧
    Ev.shutdownBegin ∉ startTrace polls ∧
    (∀ m, Ev.restartSched m ∉ startTrace polls) ∧
    (∀ n q, (∀ k, q k = false) → waitForHealthcheck n q = ([Ev.healthTimeout n], false)) := by
  have h0 : waitForHealthcheck SName.stagehand (polls SName.stagehand)
      = ([Ev.healthTimeout SName.stagehand], false) :=
    wfh_allFalse SName.stagehand (polls SName.stagehand) h 1 maxAttempts
  refine ⟨h0, ?_, ?_, ?_, ?_, ?_⟩
  · simp only [startTrace, h0]
    exact List.Sublist.cons _ (List.Sublist.cons₂ _
      (List.Sublist.cons _ (List.Sublist.cons₂ _ (List.nil_sublist _))))
  · intro c hc
    rcases startTrace_mem polls _ hc with h1 | h1 | h1 | h1 | ⟨n, h1⟩ | ⟨n, h1⟩ <;> simp at h1
  · intro hc
    rcases startTrace_mem polls _ hc with h1 | h1 | h1 | h1 | ⟨n, h1⟩ | ⟨n, h1⟩ <;> simp at h1
  · intro m hc
    rcases startTrace_mem polls _ hc with h1 | h1 | h1 | h1 | ⟨n, h1⟩ | ⟨n, h1⟩ <;> simp at h1
  · intro n q hq
    exact wfh_allFalse n q hq 1 maxAttempts

/-- Claim C6 (witness): the theorem at the poll function that always fails:
the stagehand loop times out, yet the backend spawn still follows. -/
theorem claim_C6_witness :
    ((fun _ _ => false : SName → Nat → Bool) SName.stagehand 1 = false) ∧
    waitForHealthcheck SName.stagehand ((fun _ _ => false : SName → Nat → Bool) SName.stagehand)
      = ([Ev.healthTimeout SName.stagehand], false) ∧
    [Ev.healthTimeout SName.stagehand, Ev.spawn SName.backend].Sublist
      (startTrace (fun _ _ => false)) := by
  have h := claim_C6_theorem (fun _ _ => false) (fun _ => rfl)
  exact ⟨rfl, h.1, h.2.1⟩

/-! ## Claim C4 — concurrent, gated teardown -/

/-- Every bound on an individual race: a process resolves at its exit time
or at the force-kill timeout, whichever is earlier. -/
theorem resolveTime_le (p : ProcInfo) : resolveTime p ≤ shutdownTimeoutMs := by
  cases hp : p.exitTime <;> simp [resolveTime, hp]

/-- Claim C4: for a tracked, not-yet-signalled process handle, the shutdown
trace contains its SIGTERM followed by its exit observation (when the exit
wins the 10 s race) or by its SIGKILL (when the timeout wins), and in either
case the log stream is closed and `process.exit` is called with the requested
code only afterwards; the exit call is the final event; each race resolves no
later than the global completion point, which — the races running
concurrently — is itself bounded by the single 10 s timeout. -/
theorem claim_C4_theorem (tbl : ProcTable) (code : Nat) (n : SName) (p : ProcInfo)
    (hn : tbl n = some p) (hk : p.killed = false) :
    (exitsWithin p = true →
      [Ev.sigterm n, Ev.exited n, Ev.logStreamClosed, Ev.exitProcess code].Sublist
        (shutdownTrace tbl code)) ∧
    (exitsWithin p = false →
      [Ev.sigterm n, Ev.sigkill n, Ev.logStreamClosed, Ev.exitProcess code].Sublist
        (shutdownTrace tbl code)) ∧
    (shutdownTrace tbl code).getLast? = some (Ev.exitProcess code) ∧
    resolveTime p ≤ completionTime tbl ∧
    completionTime tbl ≤ shutdownTimeoutMs := by
  have hpe : procEvents tbl n = perProc n p := by
    simp [procEvents, hn, hk]
  have hsub : (perProc n p).Sublist ((tableNames.map (procEvents tbl)).flatten) := by
    have := sublist_flatten_of_mem (procEvents tbl) (mem_tableNames n)
    rwa [hpe] at this
  refine ⟨?_, ?_, ?_, ?_, ?_⟩
  · intro hew
    have hpp : perProc n p = [Ev.sigterm n, Ev.exited n] := by
      simp [perProc, hew]
    simp only [shutdownTrace]
    refine List.Sublist.cons _ ?_
    have := List.Sublist.append (hpp ▸ hsub)
      (List.Sublist.refl [Ev.logStreamClosed, Ev.exitProcess code])
    simpa using this
  · intro hew
    have hpp : perProc n p = [Ev.sigterm n, Ev.sigkill n] := by
      simp [perProc, hew]
    simp only [shutdownTrace]
    refine List.Sublist.cons _ ?_
    have := List.Sublist.append (hpp ▸ hsub)
      (List.Sublist.refl [Ev.logStreamClosed, Ev.exitProcess code])
    simpa using this
  · have hform : shutdownTrace tbl code
        = (Ev.shutdownBegin :: ((tableNames.map (procEvents tbl)).flatten
            ++ [Ev.logStreamClosed])) ++ [Ev.exitProcess code] := by
      simp [shutdownTrace]
    rw [hform, List.getLast?_concat]
  · have hmemT : resolveTime p ∈ procResolveTimes tbl := by
      simp only [procResolveTimes, List.mem_filterMap]
      exact ⟨n, mem_tableNames n, by simp [hn, hk]⟩
    exact le_foldr_max _ _ hmemT
  · refine foldr_max_le _ _ ?_
    intro x hx
    simp only [procResolveTimes, List.mem_filterMap] at hx
    obtain ⟨m, _, hm⟩ := hx
    rcases htm : tbl m with _ | q
    · simp [htm] at hm
    · by_cases hq : q.killed
      · simp [htm, hq] at hm
      · have hx2 : resolveTime q = x := by simpa [htm, hq] using hm
        rw [← hx2]
        exact resolveTime_le q

/-- Claim C4 (witness): the theorem on the sample table for the backend
handle, whose exit (120 ms) wins its race: SIGTERM, exit, log-stream close
and `process.exit(0)` appear in that order, and the whole teardown completes
at the frontend's forced kill, within the 10 s bound. -/
theorem claim_C4_witness :
    sampleTable SName.backend = some { killed := false, exitTime := some 120 } ∧
    [Ev.sigterm SName.backend, Ev.exited SName.backend, Ev.logStreamClosed,
      Ev.exitProcess 0].Sublist (shutdownTrace sampleTable 0) ∧
    completionTime sampleTable ≤ shutdownTimeoutMs := by
  have h := claim_C4_theorem sampleTable 0 SName.backend
    { killed := false, exitTime := some 120 } rfl rfl
  exact ⟨rfl, h.1 (by decide), h.2.2.2.2⟩

/-! ## Claim C5 — what a termination signal triggers -/

/-- Events contributed by one process to the teardown are signals and exit
observations only. -/
theorem procEvents_mem (tbl : ProcTable) (m : SName) (e : Ev) (he : e ∈ procEvents tbl m) :
    e = Ev.sigterm m ∨ e = Ev.exited m ∨ e = Ev.sigkill m := by
  rcases htm : tbl m with _ | q
  · simp [procEvents, htm] at he
  · by_cases hq : q.killed
    · simp [procEvents, htm, hq] at he
    · rcases (by simpa [procEvents, htm, hq, perProc] using he :
          e = Ev.sigterm m
            ∨ e ∈ (if exitsWithin q = true then [Ev.exited m] else [Ev.sigkill m])) with h1 | h1
      · exact Or.inl h1
      · by_cases hw : exitsWithin q
        · simp [hw] at h1
          exact Or.inr (Or.inl h1)
        · simp [hw] at h1
          exact Or.inr (Or.inr h1)

/-- Claim C5 (counterexample): in the concrete signal-handling execution on
the sample table, the full event sequence contains no session-cleanup call
at all — in particular none before the children are torn down — refuting
"handling the signal triggers session-registry cleanup ... before the
supervised shutdown of all child processes". -/
theorem claim_C5_counterexample :
    signalTrace sampleTable
      = [Ev.sigReceived, Ev.shutdownBegin,
         Ev.sigterm SName.backend, Ev.exited SName.backend,
         Ev.sigterm SName.frontend, Ev.sigkill SName.frontend,
         Ev.logStreamClosed, Ev.exitProcess 0] ∧
    Ev.cleanup ∉ signalTrace sampleTable := by
  exact ⟨by decide, by decide⟩

/-- Claim C5 (amended): a termination signal triggers the supervised
shutdown of all children directly, with exit code 0 — no session-registry
bulk-cleanup call occurs anywhere in the signal path, for any process table;
the bulk-cleanup operation is invoked by the supervisor only during startup,
after the stagehand health check (as every startup trace shows). -/
theorem claim_C5_theorem (tbl : ProcTable) (polls : SName → Nat → Bool) :
    Ev.cleanup ∉ signalTrace tbl ∧
    (signalTrace tbl).head? = some Ev.sigReceived ∧
    Ev.shutdownBegin ∈ signalTrace tbl ∧
    Ev.exitProcess 0 ∈ signalTrace tbl ∧
    (signalTrace tbl).getLast? = some (Ev.exitProcess 0) ∧
    Ev.cleanup ∈ startTrace polls := by
  refine ⟨?_, rfl, ?_, ?_, ?_, ?_⟩
  · intro hc
    simp only [signalTrace, shutdownTrace, List.mem_cons, List.mem_append] at hc
    rcases hc with h | h | h | h
    · simp at h
    · simp at h
    · rcases List.mem_flatten.mp h with ⟨l, hl, hcl⟩
      rcases List.mem_map.mp hl with ⟨m, _, rfl⟩
      rcases procEvents_mem tbl m _ hcl with h1 | h1 | h1 <;> simp at h1
    · simp at h
  · simp [signalTrace, shutdownTrace]
  · simp [signalTrace, shutdownTrace]
  · have hform : signalTrace tbl
        = (Ev.sigReceived :: Ev.shutdownBegin ::
            ((tableNames.map (procEvents tbl)).flatten ++ [Ev.logStreamClosed]))
          ++ [Ev.exitProcess 0] := by
      simp [signalTrace, shutdownTrace]
    rw [hform, List.getLast?_concat]
  · simp [startTrace]

/-! ## Lemmas about log-line parsing -/

/-- Scanning to the first `]` recovers a bracket-free field exactly. -/
theorem spanToRB_append (xs rest : List Char) (h : ']' ∉ xs) :
    spanToRB (xs ++ ']' :: rest) = some (xs, rest) := by
  induction xs with
  | nil => simp [spanToRB]
  | cons c cs ih =>
    have hc : ¬ c = ']' := fun hh => h (hh ▸ List.mem_cons_self c cs)
    have h2 : ']' ∉ cs := fun hh => h (List.mem_cons_of_mem _ hh)
    simp [spanToRB, hc, ih h2]

/-- Parsing one bracketed field off the front of a built line. -/
theorem parseBrack_brack (x : List Char) (h : ']' ∉ x) (rest : List Char) :
    parseBrack (brack x ++ rest) = some (x, rest) := by
  have hb : brack x ++ rest = '[' :: (x ++ ']' :: rest) := by simp [brack]
  rw [hb]
  simpa [parseBrack] using spanToRB_append x rest h

/-- A severity tag contains no closing bracket. -/
theorem tag_no_rb (l : List Char) (h : isLevelTag l = true) : ']' ∉ l := by
  have hm : l ∈ levelTokens := by simpa [isLevelTag] using h
  simp only [levelTokens, List.mem_cons, List.not_mem_nil, or_false] at hm
  rcases hm with rfl | rfl | rfl | rfl | rfl <;> decide

/-- A severity tag is never timestamp-shaped. -/
theorem tsShaped_tag (l : List Char) (h : isLevelTag l = true) : tsShaped l = false := by
  have hm : l ∈ levelTokens := by simpa [isLevelTag] using h
  simp only [levelTokens, List.mem_cons, List.not_mem_nil, or_false] at hm
  rcases hm with rfl | rfl | rfl | rfl | rfl <;> decide

/-- The parser inverts the printer on supervisor-format lines. -/
theorem parseLogLine_logLine (ts lvl svc msg : List Char)
    (hts : ']' ∉ ts) (hlvl : ']' ∉ lvl) (hsvc : ']' ∉ svc) :
    parseLogLine (logLine ts lvl svc msg) = some (ts, lvl, svc, msg) := by
  simp [parseLogLine, logLine, parseBrack_brack ts hts, parseBrack_brack lvl hlvl,
    parseBrack_brack svc hsvc, lit]

/-- Supervisor-format lines satisfy the documented format. -/
theorem formatOK_logLine (ts lvl svc msg : List Char)
    (h1 : tsShaped ts = true) (h2 : isLevelTag lvl = true)
    (hts : ']' ∉ ts) (hsvc : ']' ∉ svc) :
    formatOK (logLine ts lvl svc msg) = true := by
  simp [formatOK, parseLogLine_logLine ts lvl svc msg hts (tag_no_rb lvl h2) hsvc, h1, h2]

/-- A found severity token is one of the five alternatives. -/
theorem findLevelAux_mem (cs : List Char) (prev : Option Char) (tok : List Char)
    (h : findLevelAux prev cs = some tok) : tok ∈ levelTokens := by
  induction cs generalizing prev with
  | nil => simp [findLevelAux] at h
  | cons c rest ih =>
    rw [findLevelAux] at h
    rcases hf : levelTokens.find? (fun t => tokenMatchesAt prev (c :: rest) t) with _ | t
    · rw [hf] at h
      exact ih (some c) h
    · rw [hf] at h
      cases h
      exact List.mem_of_find?_eq_some hf

/-- The converted detected severity is always a severity tag. -/
theorem detectLevel_tag (msg : List Char) : isLevelTag (detectLevel msg) = true := by
  unfold detectLevel
  rcases hf : findLevel msg with _ | tok
  · decide
  · have hm : tok ∈ levelTokens := findLevelAux_mem msg none tok hf
    simp only [levelTokens, List.mem_cons, List.not_mem_nil, or_false] at hm
    rcases hm with rfl | rfl | rfl | rfl | rfl <;> decide

/-- A reclassified child line that kept its own timestamp never satisfies
the documented format: its first bracketed field is the severity, which is
not timestamp-shaped. -/
theorem formatOK_childLine (lvl svc msg : List Char)
    (h2 : isLevelTag lvl = true) (hsvc : ']' ∉ svc) :
    formatOK (childLine lvl svc msg) = false := by
  have hlvl : ']' ∉ lvl := tag_no_rb lvl h2
  have hstep : parseLogLine (childLine lvl svc msg)
      = (parseBrack msg).bind (fun p => (lit ' ' p.2).bind (fun r => some (lvl, svc, p.1, r))) := by
    simp [parseLogLine, childLine, parseBrack_brack lvl hlvl, parseBrack_brack svc hsvc, lit]
  simp only [formatOK, hstep]
  rcases parseBrack msg with _ | ⟨s, r3⟩
  · simp
  · rcases h4 : lit ' ' r3 with _ | r4 <;> simp [h4, tsShaped_tag lvl h2]

/-! ## Claim C7 — the documented log-file format -/

/-- Claim C7 (counterexample): a child line that carries its own timestamp
is written to the log file as `[LEVEL] [SERVICE] message` — with no leading
bracketed timestamp — so it does not have the documented
`[timestamp] [LEVEL] [SERVICE] message` format, refuting "every line written
to the log file has that format". -/
theorem claim_C7_counterexample :
    hasTimestampL (String.data "2025-08-28 16:16:32,185 - src - INFO - ready") = true ∧
    logProcessOutput (String.data "2025-08-28 16:16:32,185 - src - INFO - ready")
        (String.data "BACKEND") (String.data "2025-08-28T16:16:35.000Z")
      = String.data "[INFO] [BACKEND] 2025-08-28 16:16:32,185 - src - INFO - ready" ∧
    formatOK (logProcessOutput (String.data "2025-08-28 16:16:32,185 - src - INFO - ready")
        (String.data "BACKEND") (String.data "2025-08-28T16:16:35.000Z")) = false := by
  exact ⟨by decide, by decide, by decide⟩

/-- Claim C7 (amended): every line the supervisor's own `log` method writes
has the documented `[timestamp] [LEVEL] [SERVICE] message` format, and so
does reclassified child output that carries no embedded timestamp; child
output that does carry an embedded timestamp is instead written as
`[LEVEL] [SERVICE] message` and never satisfies the documented format. -/
theorem claim_C7_theorem (ts lvl svc msg : List Char)
    (h1 : tsShaped ts = true) (h2 : isLevelTag lvl = true)
    (hts : ']' ∉ ts) (hsvc : ']' ∉ svc) :
    formatOK (logLine ts lvl svc msg) = true ∧
    (hasTimestampL msg = false → formatOK (logProcessOutput msg svc ts) = true) ∧
    (hasTimestampL msg = true →
      logProcessOutput msg svc ts = childLine (detectLevel msg) svc msg ∧
      formatOK (logProcessOutput msg svc ts) = false) := by
  refine ⟨formatOK_logLine ts lvl svc msg h1 h2 hts hsvc, ?_, ?_⟩
  · intro h
    have : logProcessOutput msg svc ts = logLine ts (detectLevel msg) svc msg := by
      simp [logProcessOutput, h]
    rw [this]
    exact formatOK_logLine ts (detectLevel msg) svc msg h1 (detectLevel_tag msg) hts hsvc
  · intro h
    have heq : logProcessOutput msg svc ts = childLine (detectLevel msg) svc msg := by
      simp [logProcessOutput, h]
    rw [heq]
    exact ⟨rfl, formatOK_childLine (detectLevel msg) svc msg (detectLevel_tag msg) hsvc⟩

/-- Claim C7 (witness): the amended theorem at the supervisor's ISO
timestamp, level INFO, service MAIN, and an un-timestamped message. -/
theorem claim_C7_witness :
    tsShaped (String.data "2025-08-28T16:16:35.000Z") = true ∧
    isLevelTag (String.data "INFO") = true ∧
    ']' ∉ String.data "2025-08-28T16:16:35.000Z" ∧
    ']' ∉ String.data "MAIN" ∧
    formatOK (logLine (String.data "2025-08-28T16:16:35.000Z") (String.data "INFO")
      (String.data "MAIN") (String.data "Starting services...")) = true := by
  refine ⟨by decide, by decide, by decide, by decide, ?_⟩
  exact (claim_C7_theorem (String.data "2025-08-28T16:16:35.000Z") (String.data "INFO")
    (String.data "MAIN") (String.data "Starting services...")
    (by decide) (by decide) (by decide) (by decide)).1

/-! ## Claim C8 — reclassification of child output -/

/-- Claim C8 (counterexample): a child line with a leading embedded
timestamp but no recognizable severity token.  The claim's "otherwise"
branch (no timestamp-and-token) requires the supervisor to wrap the line
with its own timestamp; the code instead keys on the timestamp alone and
emits `[INFO] [SERVICE] message` without re-stamping. -/
theorem claim_C8_counterexample :
    findLevel (String.data "2025-08-28 16:16:32 starting worker") = none ∧
    hasTimestampL (String.data "2025-08-28 16:16:32 starting worker") = true ∧
    logProcessOutput (String.data "2025-08-28 16:16:32 starting worker")
        (String.data "BACKEND") (String.data "2025-08-28T16:16:35.000Z")
      = childLine (String.data "INFO") (String.data "BACKEND")
          (String.data "2025-08-28 16:16:32 starting worker") ∧
    logProcessOutput (String.data "2025-08-28 16:16:32 starting worker")
        (String.data "BACKEND") (String.data "2025-08-28T16:16:35.000Z")
      ≠ logLine (String.data "2025-08-28T16:16:35.000Z") (String.data "INFO")
          (String.data "BACKEND") (String.data "2025-08-28 16:16:32 starting worker") := by
  exact ⟨by decide, by decide, by decide, by decide⟩

/-- Claim C8 (amended): the branch is decided by the leading embedded
timestamp alone.  If the line starts with a timestamp, the supervisor emits
`[LEVEL] [SERVICE] message` without re-stamping, where LEVEL is the severity
token found anywhere in the line — preserved, except DEBUG downgraded to
INFO and CRITICAL to ERROR — or INFO when none is found; if the line has no
leading timestamp, the supervisor wraps it with its own timestamp, the same
inferred-or-default severity, and the service name. -/
theorem claim_C8_theorem (msg svc ts : List Char) :
    (hasTimestampL msg = true →
      logProcessOutput msg svc ts = childLine (detectLevel msg) svc msg) ∧
    (hasTimestampL msg = false →
      logProcessOutput msg svc ts = logLine ts (detectLevel msg) svc msg) ∧
    (findLevel msg = some (String.data "DEBUG") → detectLevel msg = String.data "INFO") ∧
    (findLevel msg = some (String.data "CRITICAL") → detectLevel msg = String.data "ERROR") ∧
    (findLevel msg = some (String.data "WARNING") → detectLevel msg = String.data "WARNING") ∧
    (findLevel msg = some (String.data "ERROR") → detectLevel msg = String.data "ERROR") ∧
    (findLevel msg = some (String.data "INFO") → detectLevel msg = String.data "INFO") ∧
    (findLevel msg = none → detectLevel msg = String.data "INFO") := by
  refine ⟨?_, ?_, ?_, ?_, ?_, ?_, ?_, ?_⟩ <;> intro h
  · simp [logProcessOutput, h]
  · simp [logProcessOutput, h]
  · simp only [detectLevel, h]
    decide
  · simp only [detectLevel, h]
    decide
  · simp only [detectLevel, h]
    decide
  · simp only [detectLevel, h]
    decide
  · simp only [detectLevel, h]
    decide
  · simp only [detectLevel, h]
    decide

/-- Claim C8 (witness): the amended theorem at the canonical backend log
line: the embedded timestamp is kept, the INFO token is preserved, and the
service tag is added. -/
theorem claim_C8_witness :
    hasTimestampL (String.data "2025-08-28 16:16:32,185 - src - INFO - ready") = true ∧
    logProcessOutput (String.data "2025-08-28 16:16:32,185 - src - INFO - ready")
        (String.data "BACKEND") (String.data "2025-08-28T16:16:35.000Z")
      = childLine (detectLevel (String.data "2025-08-28 16:16:32,185 - src - INFO - ready"))
          (String.data "BACKEND") (String.data "2025-08-28 16:16:32,185 - src - INFO - ready") := by
  exact ⟨by decide,
    (claim_C8_theorem (String.data "2025-08-28 16:16:32,185 - src - INFO - ready")
      (String.data "BACKEND") (String.data "2025-08-28T16:16:35.000Z")).1 (by decide)⟩

end UnifiedServer
